import Mathlib

/-!
Verification of the ATC step-engine specification against a shallow
embedding of the source (github.com/dmfallak/atc, Go).

The embedding translates the `exec` and `exec/resource` packages: the
resource step (`resourceStep` in the later variant of the source), the
`Conditional` step, the `aggregateArtifactSource`, the resource `Put`
action, and the task-config sources.  Parts of the repository whose
implementations are not present in the source tree (the `Compose` body,
the `FileConfigSource.FetchConfig` body, the Task step, the
`failureReporter` wrapper, the script runner's signal handling and
`atc.Conditions.SatisfiedBy`) are modelled from the specification, and
each such definition carries a doc comment saying so.
-/

namespace ATC

/-- Errors crossing step boundaries.  `disaster` stands for an arbitrary
opaque Go error value (the tests call it "nope" / "oh no!"). -/
inductive GoErr where
  | disaster (msg : String)
  | errInterrupted
  | unknownArtifactSource (name : String)
  | unspecifiedArtifactSource (path : String)
  | invalidConfig
  | malformedFile
  deriving DecidableEq, Repr

/-- `atc.Version`: an opaque mapping of strings. -/
abbrev Version := List (String × String)

/-- `atc.MetadataField`. -/
structure MetadataField where
  name : String
  value : String
  deriving DecidableEq, Repr

/-- `exec.VersionInfo`: the result kind reported by resource steps. -/
structure VersionInfo where
  version : Version
  metadata : List MetadataField
  deriving DecidableEq, Repr

/-- `atc.Source`: the opaque resource source mapping. -/
abbrev Source := List (String × String)

/-- `atc.Params`. -/
abbrev Params := List (String × String)

/-! ## C1: Compose -/

/-- Outcome of running one step to completion. -/
inductive Outcome where
  | success
  | failure (e : GoErr)
  | cancelled
  deriving DecidableEq, Repr

/-- A step of the composition model: an identifier (standing for the
step's result/artifact operations) and the outcome its run produces,
possibly depending on the identifier of the previous step it is bound
with (`none` when it has no previous step). -/
structure MStep where
  id : Nat
  run : Option Nat → Outcome

/-- The observable trace of running a composed step. -/
structure ComposeTrace where
  aRan : Bool
  bRan : Bool
  bBoundPrev : Option Nat
  outcome : Outcome
  projectedId : Nat
  deriving DecidableEq, Repr

/-- Modelled from the spec: `Compose` returns `nil` in the source
(src/exec/step.go); the specification fixes its behaviour per its tests
and usage.  `Compose(a, b)` bound with a previous step runs `a`; on
`a`'s success it binds `b` with `a` as previous step and runs it;
failure or cancellation of `a` short-circuits `b`; the composed step's
result and artifact operations project `b`, or `a` if `b` never ran. -/
def composeRun (a b : MStep) (prev : Option Nat) : ComposeTrace :=
  match a.run prev with
  | Outcome.success =>
      { aRan := true
        bRan := true
        bBoundPrev := some a.id
        outcome := b.run (some a.id)
        projectedId := b.id }
  | Outcome.failure e =>
      { aRan := true
        bRan := false
        bBoundPrev := none
        outcome := Outcome.failure e
        projectedId := a.id }
  | Outcome.cancelled =>
      { aRan := true
        bRan := false
        bBoundPrev := none
        outcome := Outcome.cancelled
        projectedId := a.id }

/-- Claim C1: `Compose(a, b)` runs `a`; on `a`'s success it binds and
runs `b` with `a` as the previous step; failure or cancellation of `a`
short-circuits `b` (`b` is never run); and the composed step's result
and artifact operations project `b`, or `a` if `b` never ran. -/
theorem compose_sequences_and_projects (a b : MStep) (prev : Option Nat) :
    (composeRun a b prev).aRan = true ∧
    ((composeRun a b prev).bRan = (a.run prev == Outcome.success)) ∧
    (composeRun a b prev).bBoundPrev =
      (if a.run prev = Outcome.success then some a.id else none) ∧
    (composeRun a b prev).outcome =
      (if a.run prev = Outcome.success then b.run (some a.id) else a.run prev) ∧
    (composeRun a b prev).projectedId =
      (if (composeRun a b prev).bRan then b.id else a.id) := by
  unfold composeRun
  rcases h : a.run prev with _ | e
  all_goals simp [h]

/-! ## C2: resourceStep.Run + the failure-reporter wrapper -/

/-- A call made on a resource step's delegate. -/
inductive DelegateCall where
  | completed (info : VersionInfo)
  | failed (e : GoErr)
  deriving DecidableEq, Repr

/-- The collaborators of one run of a `resourceStep`
(src/exec/resource/resource_check_test.go, later variant): what
`Tracker.Init` returns, what `VersionedSource.Run` returns, and the
version/metadata the versioned source reports afterwards. -/
structure ResourceRunEnv where
  initResult : Except GoErr Unit
  scriptResult : Except GoErr Unit
  version : Version
  metadata : List MetadataField

/-- `resourceStep.Run` from the source: init the resource via the
tracker (propagating its error), run the action's versioned source
(propagating its error), and on success call `Delegate.Completed` with
the reported version info.  Returns the run's error and the delegate
calls made. -/
def resourceStepRun (env : ResourceRunEnv) : Except GoErr Unit × List DelegateCall :=
  match env.initResult with
  | Except.error e => (Except.error e, [])
  | Except.ok _ =>
      match env.scriptResult with
      | Except.error e => (Except.error e, [])
      | Except.ok _ =>
          (Except.ok (), [DelegateCall.completed ⟨env.version, env.metadata⟩])

/-- Modelled from the spec: the `failureReporter` type is referenced by
`resourceStep.Using` in the source but its definition is not in the
source tree.  Per the spec, every step kind is wrapped so that any error
returned from `run` is first forwarded to the delegate's `failed(err)`
callback and then propagated. -/
def failureReporterRun (env : ResourceRunEnv) : Except GoErr Unit × List DelegateCall :=
  let r := resourceStepRun env
  match r.1 with
  | Except.error e => (Except.error e, r.2 ++ [DelegateCall.failed e])
  | Except.ok _ => r

/-- Claim C2: for every run of a (wrapped) resource step that finishes,
exactly one of the delegate's Completed or Failed callbacks is invoked,
each at most once; any error returned from Run is forwarded to Failed
and then propagated; Completed is invoked only on a successful run. -/
theorem resource_step_delegate_exclusive (env : ResourceRunEnv) :
    (failureReporterRun env).2.length = 1 ∧
    (failureReporterRun env).2 =
      (match (failureReporterRun env).1 with
       | Except.error e => [DelegateCall.failed e]
       | Except.ok _ => [DelegateCall.completed ⟨env.version, env.metadata⟩]) := by
  unfold failureReporterRun resourceStepRun
  rcases env.initResult with e | u
  · simp
  · rcases env.scriptResult with e | u <;> simp

/-! ## C10: resourceStep.Result -/

/-- The typed result container passed to `Result`: the caller passes a
pointer to one of the known result kinds. -/
inductive ResultBox where
  | versionInfoBox (v : VersionInfo)
  | successBox (b : Bool)
  | exitStatusBox (n : Nat)
  deriving DecidableEq, Repr

/-- The post-run state of a resource step's versioned source. -/
structure VersionedSourceState where
  version : Version
  metadata : List MetadataField

/-- `resourceStep.Result` from the source: a type switch that fills a
`*VersionInfo` with the versioned source's version and metadata and
returns true; any other container kind returns false unchanged. -/
def resourceStepResult (vs : VersionedSourceState) (x : ResultBox) : Bool × ResultBox :=
  match x with
  | ResultBox.versionInfoBox _ =>
      (true, ResultBox.versionInfoBox ⟨vs.version, vs.metadata⟩)
  | other => (false, other)

/-- Claim C10: resource-step `Result` succeeds only for the VersionInfo
kind, filling it with the versioned source's version and metadata;
Success and ExitStatus containers are refused unchanged, so a resource
step never reports a Success result. -/
theorem resource_step_result_only_version_info (vs : VersionedSourceState) :
    (∀ v : VersionInfo,
      resourceStepResult vs (ResultBox.versionInfoBox v) =
        (true, ResultBox.versionInfoBox ⟨vs.version, vs.metadata⟩)) ∧
    (∀ b : Bool,
      resourceStepResult vs (ResultBox.successBox b) = (false, ResultBox.successBox b)) ∧
    (∀ n : Nat,
      resourceStepResult vs (ResultBox.exitStatusBox n) = (false, ResultBox.exitStatusBox n)) := by
  refine ⟨fun v => rfl, fun b => rfl, fun n => rfl⟩

/-! ## C9: resourceStep.Release -/

/-- A live resource handle as seen by `Release`: what its `Destroy`
returns. -/
structure MRes where
  destroyResult : Except GoErr Unit

/-- `resourceStep.Release` from the source: if a resource was
initialized, call `Destroy` on it and return its result; otherwise
return nil.  The second component counts the `Destroy` invocations
this call performs. -/
def resourceStepRelease (res : Option MRes) : Except GoErr Unit × Nat :=
  match res with
  | some r => (r.destroyResult, 1)
  | none => (Except.ok (), 0)

/-- Total number of `Destroy` invocations performed by `n` successive
calls to `Release` on the same step state (the source's `Release` never
clears `ras.Resource`, so every call behaves alike). -/
def releaseDestroyTotal : Option MRes → Nat → Nat
  | _, 0 => 0
  | res, n + 1 => (resourceStepRelease res).2 + releaseDestroyTotal res n

/-- Claim C9 counterexample: on a resource step whose run initialized a
resource, a second `Release` is not effect-free — it invokes `Destroy`
again (two destroys after two releases, against one after one). -/
theorem release_not_idempotent_counterexample :
    ¬ (releaseDestroyTotal (some ⟨Except.ok ()⟩) 2 =
       releaseDestroyTotal (some ⟨Except.ok ()⟩) 1) := by
  decide

/-- Claim C9 amended: release is permitted from any bound state; before
a resource has been initialized it is a no-op returning nil (and hence
idempotent there); once a resource is initialized, every call invokes
`Destroy` once more, so `n` releases perform `n` destroys. -/
theorem release_effect_per_call (r : MRes) (n : Nat) :
    resourceStepRelease none = (Except.ok (), 0) ∧
    resourceStepRelease (some r) = (r.destroyResult, 1) ∧
    releaseDestroyTotal none n = 0 ∧
    releaseDestroyTotal (some r) n = n := by
  refine ⟨rfl, rfl, ?_, ?_⟩
  · induction n with
    | zero => rfl
    | succ k ih => simpa [releaseDestroyTotal, resourceStepRelease] using ih
  · induction n with
    | zero => rfl
    | succ k ih => simp [releaseDestroyTotal, resourceStepRelease, ih, Nat.add_comm]

/-! ## C8: aggregateArtifactSource.Release -/

/-- `aggregateArtifactSource.Release` from the source
(src/exec/artifact_source.go): the body is only the comment
"release all sources" and `return nil` — no child source's `Release`
is invoked.  The second component lists the names of the children whose
`Release` was called. -/
def aggregateRelease (children : List (String × MRes)) : Except GoErr Unit × List String :=
  (Except.ok (), [])

/-- Claim C8, evaluated at the failing input: an aggregate with a single
child whose release would fail still returns nil from `Release`, and no
child is released — contradicting both the claim and the code's own
"release all sources" comment. -/
theorem aggregate_release_releases_nothing :
    aggregateRelease [("a", ⟨Except.error (GoErr.disaster "nope")⟩)] =
      (Except.ok (), []) ∧
    aggregateRelease [("a", ⟨Except.error (GoErr.disaster "nope")⟩)] ≠
      (Except.error (GoErr.disaster "nope"), ["a"]) := by
  constructor
  · rfl
  · intro h
    simp [aggregateRelease] at h

/-! ## C6: resource.Put -/

/-- The request payload written to `/opt/resource/out`'s stdin
(`outRequest` in the source): exactly a source field and a params
field. -/
structure OutRequest where
  source : Source
  params : Params
  deriving DecidableEq, Repr

/-- An operation performed on the resource's container. -/
inductive ContainerOp where
  | streamIn (dest : String) (streamId : Nat)
  | runScript (path : String) (args : List String) (request : OutRequest)
  deriving DecidableEq, Repr

/-- `resource.ResourcesDir` from the source. -/
def ResourcesDir : String := "/tmp/build/src"

/-- `resource.Put`'s runner from the source: stream the artifact
source's byte stream (identified here by `sourceStream`) into the
container at `ResourcesDir`; if that fails, return the error without
running the script; otherwise run `/opt/resource/out` with the out
request (source and params) on stdin, returning the script run's
result. -/
def put (source : Source) (params : Params) (sourceStream : Nat)
    (streamInResult : Except GoErr Unit) (scriptResult : Except GoErr Unit) :
    Except GoErr Unit × List ContainerOp :=
  match streamInResult with
  | Except.error e => (Except.error e, [ContainerOp.streamIn ResourcesDir sourceStream])
  | Except.ok _ =>
      (scriptResult,
       [ContainerOp.streamIn ResourcesDir sourceStream,
        ContainerOp.runScript "/opt/resource/out" [ResourcesDir] ⟨source, params⟩])

/-- Claim C6: a put first streams the artifact source into the container
at the fixed path /tmp/build/src; if the streaming fails the script is
never run and the error is returned; otherwise `/opt/resource/out` is
run with a request consisting of exactly the source and params fields. -/
theorem put_stages_then_runs_out (source : Source) (params : Params)
    (sourceStream : Nat) (scriptResult : Except GoErr Unit) :
    ResourcesDir = "/tmp/build/src" ∧
    (∀ e : GoErr,
      put source params sourceStream (Except.error e) scriptResult =
        (Except.error e, [ContainerOp.streamIn "/tmp/build/src" sourceStream])) ∧
    put source params sourceStream (Except.ok ()) scriptResult =
      (scriptResult,
       [ContainerOp.streamIn "/tmp/build/src" sourceStream,
        ContainerOp.runScript "/opt/resource/out" ["/tmp/build/src"]
          ⟨source, params⟩]) := by
  refine ⟨rfl, fun e => rfl, rfl⟩

/-! ## C4: Conditional -/

/-- One element of `atc.Conditions`. -/
inductive Condition where
  | conditionSuccess
  | conditionFailure
  deriving DecidableEq, Repr

/-- `atc.Conditions`: a set (list) of conditions, subset of
success/failure. -/
abbrev Conditions := List Condition

/-- Modelled from the spec: `atc.Conditions.SatisfiedBy` is not under
the source tree (only its caller `Conditional.Run` is).  The condition
set, a subset of success and failure, matches a success value when it
contains the corresponding condition. -/
def SatisfiedBy (cs : Conditions) (successful : Bool) : Bool :=
  cs.any fun c =>
    match c with
    | Condition.conditionSuccess => successful
    | Condition.conditionFailure => !successful

/-- The step a Conditional chooses to become: its wrapped factory bound
with a previous step and repository (identified by numbers), or the
no-op step. -/
inductive ChosenStep where
  | wrapped (prev : Nat) (repo : Nat)
  | noop
  deriving DecidableEq, Repr

/-- `Conditional.Run` from the source: ask the previous step for a
`Success` result (`prevSuccessResult` is `some b` when the previous
step reports one); when it reports none, presume success.  When the
condition set is satisfied, bind the wrapped factory with the same
previous step and repository; otherwise become a no-op step.  Then run
the chosen step (`factoryRun` gives the wrapped step's outcome; the
no-op step succeeds). -/
def conditionalRun (conds : Conditions) (prevSuccessResult : Option Bool)
    (prev repo : Nat) (factoryRun : Nat → Nat → Outcome) : ChosenStep × Outcome :=
  let conditionMatched :=
    match prevSuccessResult with
    | some b => SatisfiedBy conds b
    | none => SatisfiedBy conds true
  let result := if conditionMatched then ChosenStep.wrapped prev repo else ChosenStep.noop
  (result,
   match result with
   | ChosenStep.wrapped p r => factoryRun p r
   | ChosenStep.noop => Outcome.success)

/-- Claim C4: when the previous step reports no Success result the
condition is evaluated as if it succeeded; when the condition set
matches the actual or presumed success value, the wrapped factory is
bound with the same previous step and repository and run; otherwise the
Conditional becomes a no-op step. -/
theorem conditional_gates_on_presumed_success (conds : Conditions)
    (prevSuccessResult : Option Bool) (prev repo : Nat)
    (factoryRun : Nat → Nat → Outcome) :
    conditionalRun conds none prev repo factoryRun =
      conditionalRun conds (some true) prev repo factoryRun ∧
    (conditionalRun conds prevSuccessResult prev repo factoryRun).1 =
      (if SatisfiedBy conds (prevSuccessResult.getD true)
       then ChosenStep.wrapped prev repo
       else ChosenStep.noop) ∧
    (conditionalRun conds prevSuccessResult prev repo factoryRun).2 =
      (if SatisfiedBy conds (prevSuccessResult.getD true)
       then factoryRun prev repo
       else Outcome.success) := by
  refine ⟨rfl, ?_, ?_⟩ <;>
  · rcases prevSuccessResult with _ | b
    · cases hS : SatisfiedBy conds true <;> simp [conditionalRun, hS]
    · cases hS : SatisfiedBy conds b <;> simp [conditionalRun, hS]

/-! ## C3: Task run against an already-existing session container -/

/-- The reserved properties of a task's session container, as read by
the task step on rebind: the `concourse:exit-status` property and the
`concourse:task-process` property, each either unset or a recorded
number. -/
structure TaskContainerProps where
  exitStatusProp : Option Nat
  taskProcessProp : Option Nat

/-- A call observable on the task step's delegate or container. -/
inductive TaskCall where
  | startedCall
  | finishedCall (n : Nat)
  | failedCall (e : GoErr)
  | attachCall (pid : Nat)
  deriving DecidableEq, Repr

/-- What one run of the task step produces: the run's result, the
observable calls, and the step's ExitStatus / Success results. -/
structure TaskOutcome where
  result : Except GoErr Unit
  calls : List TaskCall
  exitStatus : Option Nat
  success : Option Bool
  deriving Repr

/-- Modelled from the spec: the Task step implementation is not under
the source tree (only its tests are).  When the session container
already exists: if the exit-status property is set, report success
(whatever the code) with that code and skip the start/finish callbacks
and any attach; else re-attach to the recorded pid (failing via the
delegate when neither property is readable or the attach fails), and
record the awaited exit status on completion without re-emitting
Started. -/
def taskResumeRun (props : TaskContainerProps)
    (attachResult : Except GoErr Unit) (waitCode : Nat) : TaskOutcome :=
  match props.exitStatusProp with
  | some n =>
      { result := Except.ok ()
        calls := []
        exitStatus := some n
        success := some (n == 0) }
  | none =>
      match props.taskProcessProp with
      | none =>
          { result := Except.error (GoErr.disaster "property not found")
            calls := [TaskCall.failedCall (GoErr.disaster "property not found")]
            exitStatus := none
            success := none }
      | some pid =>
          match attachResult with
          | Except.error e =>
              { result := Except.error e
                calls := [TaskCall.attachCall pid, TaskCall.failedCall e]
                exitStatus := none
                success := none }
          | Except.ok _ =>
              { result := Except.ok ()
                calls := [TaskCall.attachCall pid, TaskCall.finishedCall waitCode]
                exitStatus := some waitCode
                success := some (waitCode == 0) }

/-- Claim C3: for a Task step whose session container already exists
with the exit-status property set to `n`, the run completes without
error, the ExitStatus result is `n`, the Success result is `n == 0`,
no process attach occurs, and neither the Started nor the Finished
delegate callback is invoked. -/
theorem task_resume_saved_exit_status (props : TaskContainerProps)
    (attachResult : Except GoErr Unit) (waitCode n : Nat)
    (h : props.exitStatusProp = some n) :
    (taskResumeRun props attachResult waitCode).result = Except.ok () ∧
    (taskResumeRun props attachResult waitCode).exitStatus = some n ∧
    (taskResumeRun props attachResult waitCode).success = some (n == 0) ∧
    (∀ pid : Nat, TaskCall.attachCall pid ∉ (taskResumeRun props attachResult waitCode).calls) ∧
    TaskCall.startedCall ∉ (taskResumeRun props attachResult waitCode).calls ∧
    (∀ k : Nat, TaskCall.finishedCall k ∉ (taskResumeRun props attachResult waitCode).calls) := by
  simp [taskResumeRun, h]

/-- Claim C3 witness: a container with saved exit status 123 completes
immediately with ExitStatus 123 and Success false, with no attach and
no started/finished callbacks. -/
theorem task_resume_saved_exit_status_witness :
    (taskResumeRun ⟨some 123, none⟩ (Except.ok ()) 0).result = Except.ok () ∧
    (taskResumeRun ⟨some 123, none⟩ (Except.ok ()) 0).exitStatus = some 123 ∧
    (taskResumeRun ⟨some 123, none⟩ (Except.ok ()) 0).success = some (123 == 0) ∧
    (∀ pid : Nat, TaskCall.attachCall pid ∉ (taskResumeRun ⟨some 123, none⟩ (Except.ok ()) 0).calls) ∧
    TaskCall.startedCall ∉ (taskResumeRun ⟨some 123, none⟩ (Except.ok ()) 0).calls ∧
    (∀ k : Nat, TaskCall.finishedCall k ∉ (taskResumeRun ⟨some 123, none⟩ (Except.ok ()) 0).calls) :=
  task_resume_saved_exit_status ⟨some 123, none⟩ (Except.ok ()) 0 123 rfl

/-! ## C7: cancellation of a running script -/

/-- An operation observable while a resource script or task process is
being run. -/
inductive ScriptOp where
  | signalProcess
  | stop (kill : Bool)
  | waitReturned
  deriving DecidableEq, Repr

/-- Modelled from the spec: the script runner's and task step's signal
handling is not under the source tree (only its tests are).  Per the
spec, while waiting on the wrapped process: if a cancellation signal
arrives first, the signal is sent to the wrapped process, the container
is stopped with a non-killing stop (kill = false), the wait returns,
and `ErrInterrupted` is returned upward; otherwise the wait returns the
process's exit code. -/
def runScriptWait (signalReceived : Bool) (exitCode : Nat) :
    Except GoErr Nat × List ScriptOp :=
  if signalReceived then
    (Except.error GoErr.errInterrupted,
     [ScriptOp.signalProcess, ScriptOp.stop false, ScriptOp.waitReturned])
  else
    (Except.ok exitCode, [ScriptOp.waitReturned])

/-- Claim C7: a running resource script or task that receives a
cancellation signal stops the container with kill = false exactly once,
its wait returns, and the step returns ErrInterrupted upward. -/
theorem signal_stops_container_once (exitCode : Nat) :
    (runScriptWait true exitCode).1 = Except.error GoErr.errInterrupted ∧
    ((runScriptWait true exitCode).2.countP fun op =>
      match op with
      | ScriptOp.stop _ => true
      | _ => false) = 1 ∧
    ScriptOp.stop false ∈ (runScriptWait true exitCode).2 ∧
    ScriptOp.stop true ∉ (runScriptWait true exitCode).2 ∧
    ScriptOp.waitReturned ∈ (runScriptWait true exitCode).2 := by
  refine ⟨rfl, ?_, ?_, ?_, ?_⟩ <;> simp [runScriptWait]

/-! ## C5: FileConfigSource -/

/-- `atc.TaskRunConfig`. -/
structure TaskRunConfig where
  path : String
  args : List String
  deriving DecidableEq, Repr

/-- `atc.TaskInputConfig`. -/
structure TaskInputConfig where
  name : String
  path : String
  deriving DecidableEq, Repr

/-- `atc.TaskConfig`: the recognised task-config options. -/
structure TaskConfig where
  platform : String
  tags : List String
  image : String
  params : List (String × String)
  run : TaskRunConfig
  inputs : List TaskInputConfig
  deriving DecidableEq, Repr

/-- Validation of a fetched task config: the platform and the run path
must be non-empty. -/
def validateConfig (cfg : TaskConfig) : Bool :=
  cfg.platform ≠ "" && cfg.run.path ≠ ""

/-- What a streamed file's bytes amount to once parsed: a well-formed
config document, or malformed data. -/
inductive FileBody where
  | parsed (cfg : TaskConfig)
  | bogus
  deriving DecidableEq, Repr

/-- An artifact source as the config source sees it: what streaming a
file at a given path yields. -/
structure ASource where
  streamFile : String → Except GoErr FileBody

/-- The per-build source repository: named artifact sources;
`sourceFor` is the repository lookup. -/
abbrev SourceRepo := List (String × ASource)

/-- `SourceRepository.SourceFor`. -/
def sourceFor (repo : SourceRepo) (name : String) : Option ASource :=
  match repo with
  | [] => none
  | (n, s) :: rest => if n = name then some s else sourceFor rest name

/-- Splits a character list at its first slash: the segment before the
first slash and everything after it, or `none` when it has no slash. -/
def splitSourceName : List Char → Option (List Char × List Char)
  | [] => none
  | c :: cs =>
      if c = '/' then some ([], cs)
      else
        match splitSourceName cs with
        | none => none
        | some (n, r) => some (c :: n, r)

/-- Splits a path of the form source-name/rel-path at the first slash. -/
def splitAtFirstSlash (p : String) : Option (String × String) :=
  match splitSourceName p.toList with
  | none => none
  | some (n, r) => some (String.mk n, String.mk r)

/-- Modelled from the spec: `FileConfigSource.FetchConfig` has an
unimplemented body in the source and its tests assert the behaviour;
per the spec it parses a path of the form source-name/rel-path, looks
the source name up in the repository (failing with
UnspecifiedArtifactSource when the path has no slash and with
UnknownArtifactSource when the name is absent), streams the file at the
remaining path, parses and validates it (non-empty platform and run
path), and returns it, closing the stream unconditionally.  The second
component records whether the obtained stream was closed. -/
def fileFetchConfig (path : String) (repo : SourceRepo) :
    Except GoErr TaskConfig × Bool :=
  match splitAtFirstSlash path with
  | none => (Except.error (GoErr.unspecifiedArtifactSource path), false)
  | some (name, rest) =>
      match sourceFor repo name with
      | none => (Except.error (GoErr.unknownArtifactSource name), false)
      | some src =>
          match src.streamFile rest with
          | Except.error e => (Except.error e, false)
          | Except.ok FileBody.bogus => (Except.error GoErr.malformedFile, true)
          | Except.ok (FileBody.parsed cfg) =>
              (if validateConfig cfg then Except.ok cfg
               else Except.error GoErr.invalidConfig, true)

/-- Splitting takes the segment before the first slash: on a path built
from a slash-free name, a slash and a remainder, it yields exactly that
name and remainder. -/
theorem splitSourceName_first_slash (a b : List Char) (ha : '/' ∉ a) :
    splitSourceName (a ++ '/' :: b) = some (a, b) := by
  induction a with
  | nil => simp [splitSourceName]
  | cons c cs ih =>
      have hc : c ≠ '/' := fun h => ha (by simp [h])
      have hcs : '/' ∉ cs := fun h => ha (List.mem_cons_of_mem _ h)
      simp [splitSourceName, hc, ih hcs]

/-- A slash-free path does not split. -/
theorem splitSourceName_no_slash (p : List Char) (hp : '/' ∉ p) :
    splitSourceName p = none := by
  induction p with
  | nil => rfl
  | cons c cs ih =>
      have hc : c ≠ '/' := fun h => hp (by simp [h])
      have hcs : '/' ∉ cs := fun h => hp (List.mem_cons_of_mem _ h)
      simp [splitSourceName, hc, ih hcs]

/-- Claim C5: a file config source fails with UnspecifiedArtifactSource
when the path has no slash; otherwise the segment before the first
slash is looked up in the repository, failing with
UnknownArtifactSource when absent; on success the file at the remaining
path is streamed, parsed and validated, a valid config is returned, and
the obtained stream is closed unconditionally. -/
theorem file_config_source_fetch (path : String) (repo : SourceRepo)
    (name rest : String) (src : ASource) :
    ('/' ∉ path.toList →
      fileFetchConfig path repo =
        (Except.error (GoErr.unspecifiedArtifactSource path), false)) ∧
    (splitAtFirstSlash path = some (name, rest) → sourceFor repo name = none →
      fileFetchConfig path repo =
        (Except.error (GoErr.unknownArtifactSource name), false)) ∧
    (splitAtFirstSlash path = some (name, rest) → sourceFor repo name = some src →
      ((∀ e : GoErr, src.streamFile rest = Except.error e →
          fileFetchConfig path repo = (Except.error e, false)) ∧
       (∀ body : FileBody, src.streamFile rest = Except.ok body →
          (fileFetchConfig path repo).2 = true) ∧
       (∀ cfg : TaskConfig, src.streamFile rest = Except.ok (FileBody.parsed cfg) →
          validateConfig cfg = true →
          fileFetchConfig path repo = (Except.ok cfg, true)))) ∧
    (∀ a b : List Char, '/' ∉ a → path = String.mk (a ++ '/' :: b) →
      splitAtFirstSlash path = some (String.mk a, String.mk b)) := by
  refine ⟨?_, ?_, ?_, ?_⟩
  · intro hp
    have h0 : splitSourceName path.data = none := splitSourceName_no_slash _ hp
    simp [fileFetchConfig, splitAtFirstSlash, h0]
  · intro hsplit hnone
    simp [fileFetchConfig, hsplit, hnone]
  · intro hsplit hsome
    refine ⟨?_, ?_, ?_⟩
    · intro e he
      simp [fileFetchConfig, hsplit, hsome, he]
    · intro body hb
      cases body <;> simp [fileFetchConfig, hsplit, hsome, hb]
    · intro cfg hc hv
      simp [fileFetchConfig, hsplit, hsome, hc, hv]
  · intro a b ha hpath
    have h1 : path.data = a ++ '/' :: b := by simp [hpath]
    simp [splitAtFirstSlash, h1, splitSourceName_first_slash a b ha]

/-- A concrete valid task config, as in the config-source tests. -/
def witnessConfig : TaskConfig :=
  { platform := "some-platform"
    tags := ["some", "tags"]
    image := "some-image"
    params := [("PARAM", "value")]
    run := { path := "ls", args := ["-al"] }
    inputs := [{ name := "some-input", path := "some-path" }] }

/-- Claim C5 witness: fetching "some/build.yml" from a repository whose
source "some" provides a valid config at "build.yml" looks up the first
path segment, streams the rest, returns the parsed config and closes
the stream; a slash-free path is refused. -/
theorem file_config_source_fetch_witness :
    (fileFetchConfig "foo-bar.yml"
        [("some", ⟨fun r =>
           if r = "build.yml" then Except.ok (FileBody.parsed witnessConfig)
           else Except.error (GoErr.disaster "nope")⟩)] =
      (Except.error (GoErr.unspecifiedArtifactSource "foo-bar.yml"), false)) ∧
    (fileFetchConfig "some/build.yml"
        [("some", ⟨fun r =>
           if r = "build.yml" then Except.ok (FileBody.parsed witnessConfig)
           else Except.error (GoErr.disaster "nope")⟩)] =
      (Except.ok witnessConfig, true)) := by
  constructor
  · exact (file_config_source_fetch "foo-bar.yml" _ "" "" ⟨fun _ => Except.ok FileBody.bogus⟩).1
      (by decide)
  · exact ((file_config_source_fetch "some/build.yml" _ "some" "build.yml" _).2.2.1
      (by rfl) (by rfl)).2.2 witnessConfig (by rfl) (by rfl)

end ATC
